import Mathlib

/-
  Shallow embedding of src/main.py (class HomeworkClient).

  External effects are modelled by an environment of oracles:
  * auth k        : result of the k-th authentication exchange (requests.post to AUTHENTICATION_URL);
                    a network failure raises RequestException, which get_token catches;
                    a response is a JSON object whose four expected fields may each be missing
                    (a missing field raises KeyError, which is NOT caught).
  * time k        : the value returned by the k-th call to time.time().
  * page p a      : result of attempt a of requests.post for page p (the retry loop of get_page);
                    when the stored data url is absent (None), requests.post raises
                    MissingSchema, a RequestException, so the attempt fails regardless.

  Crashes (unhandled Python exceptions) are modelled with Except Err.
-/

namespace HW

/-- One record of a page response; temperature_noon_c is None when the field is missing. -/
structure Item where
  temperature_noon_c : Option ℚ
deriving Repr, DecidableEq

/-- The JSON object returned by a successful authentication exchange; each expected
field may be absent. -/
structure AuthFields where
  token : Option String
  dataset : Option String
  request_id : Option String
  data_url : Option String
deriving Repr, DecidableEq

/-- Outcome of one authentication exchange. -/
inductive AuthResult
  | netError
  | response (f : AuthFields)
deriving Repr, DecidableEq

/-- Outcome of one page-request attempt: a RequestException (network error, non-2xx
status, or JSON decode failure), or a parsed body with its optional fields. -/
inductive PageAttempt
  | netError
  | success (items : List Item) (total_pages : Option ℤ)
deriving Repr, DecidableEq

/-- The oracles standing for the outside world. Time stamps are modelled as
integer ticks: only differences of time.time() values against the 55-unit
bound are ever observed. -/
structure Env where
  auth : ℕ → AuthResult
  time : ℕ → ℤ
  page : ℤ → ℕ → PageAttempt

/-- Unhandled exceptions of the Python program: a KeyError reading the auth JSON
in get_token, or a KeyError reading temperature_noon_c in the average. -/
inductive Err
  | authField
  | tempField
deriving Repr, DecidableEq

/-- The mutable fields of HomeworkClient, plus counters of how many authentication
exchanges and time.time() calls have happened (indices into the oracles). -/
structure St where
  token : Option String
  token_time : ℤ
  city : Option String
  req_id : Option String
  url : Option String
  all_items : List Item
  nAuth : ℕ
  nTime : ℕ
deriving Repr, DecidableEq

/-- HomeworkClient.__init__ -/
def initState : St :=
  { token := none, token_time := 0, city := none, req_id := none, url := none,
    all_items := [], nAuth := 0, nTime := 0 }

/-- HomeworkClient.MAX_ERROR -/
def MAX_ERROR : ℕ := 5

/-- HomeworkClient.TOKEN_TIMEOUT -/
def TOKEN_TIMEOUT : ℤ := 55

/-- HomeworkClient.get_token: on RequestException set token to None and return;
on a response, read the four fields in source order (token, then time.time(),
dataset, request_id, data_url); a missing field is an uncaught KeyError. -/
def get_token (env : Env) (s : St) : Except Err St :=
  match env.auth s.nAuth with
  | .netError => .ok { s with token := none, nAuth := s.nAuth + 1 }
  | .response f =>
    let s1 := { s with nAuth := s.nAuth + 1 }
    match f.token with
    | none => .error .authField
    | some t =>
      let s2 := { s1 with
        token := some t, token_time := env.time s1.nTime, nTime := s1.nTime + 1 }
      match f.dataset with
      | none => .error .authField
      | some c =>
        let s3 := { s2 with city := some c }
        match f.request_id with
        | none => .error .authField
        | some r =>
          let s4 := { s3 with req_id := some r }
          match f.data_url with
          | none => .error .authField
          | some u => .ok { s4 with url := some u }

/-- HomeworkClient.validate_token: refresh when the token is None or when
time.time() - token_time is at least TOKEN_TIMEOUT (the or short-circuits,
so no time call happens when the token is None). -/
def validate_token (env : Env) (s : St) : Except Err St :=
  if s.token = none then get_token env s
  else if TOKEN_TIMEOUT ≤ env.time s.nTime - s.token_time then
    get_token env { s with nTime := s.nTime + 1 }
  else .ok { s with nTime := s.nTime + 1 }

/-- One requests.post attempt inside get_page: when the stored url is None the
call itself raises a RequestException, otherwise the page oracle answers. -/
def attempt_result (env : Env) (s : St) (page_number : ℤ) (a : ℕ) : PageAttempt :=
  if s.url = none then .netError else env.page page_number a

/-- The retry loop of get_page: attempts numbered from the first argument, with
the second argument many attempts remaining; the first success returns its items
and total_pages (defaulting to 1 when the field is absent); exhausting all
attempts returns the sentinel pair of an empty list and total_pages 1. -/
def try_attempts (env : Env) (s : St) (page_number : ℤ) : ℕ → ℕ → List Item × ℤ
  | _, 0 => ([], 1)
  | attempt, remaining + 1 =>
    match attempt_result env s page_number attempt with
    | .success items tp => (items, tp.getD 1)
    | .netError => try_attempts env s page_number (attempt + 1) remaining

/-- HomeworkClient.get_page with the default max_retries = 3: validate the token
(which may refresh and may crash on a malformed auth response), then run the
retry loop. -/
def get_page (env : Env) (s : St) (page_number : ℤ) : Except Err (St × List Item × ℤ) :=
  match validate_token env s with
  | .error e => .error e
  | .ok s1 =>
    let r := try_attempts env s1 page_number 1 3
    .ok (s1, r.1, r.2)

/-- The state of the while loop in HomeworkClient.run when it ends, plus the
number of completed get_page calls. -/
structure LoopOut where
  st : St
  current_page : ℤ
  total_pages : ℤ
  error_counter : ℕ
  fetches : ℕ
deriving Repr, DecidableEq

/-- One iteration of the while loop body in run: fetch the page, then either
extend all_items, advance and reset the error counter, or advance and increment
the error counter; the Bool records whether the MAX_ERROR check breaks. -/
def loopBody (env : Env) (s : St) (cp : ℤ) (ec fetches : ℕ) :
    Except Err (St × ℤ × ℤ × ℕ × ℕ × Bool) :=
  match get_page env s cp with
  | .error e => .error e
  | .ok (s1, items, tp1) =>
    let s2 := if items = [] then s1 else { s1 with all_items := s1.all_items ++ items }
    let ec1 := if items = [] then ec + 1 else 0
    .ok (s2, cp + 1, tp1, ec1, fetches + 1, decide (MAX_ERROR ≤ ec1))

/-- The while loop of run, with fuel to make the recursion structural: none
means the fuel ran out before the loop ended. -/
def runLoop (env : Env) : ℕ → St → ℤ → ℤ → ℕ → ℕ → Option (Except Err LoopOut)
  | 0, _, _, _, _, _ => none
  | fuel + 1, s, cp, tp, ec, fetches =>
    if cp ≤ tp then
      match loopBody env s cp ec fetches with
      | .error e => some (.error e)
      | .ok (s1, cp1, tp1, ec1, fetches1, brk) =>
        if brk then some (.ok ⟨s1, cp1, tp1, ec1, fetches1⟩)
        else runLoop env fuel s1 cp1 tp1 ec1 fetches1
    else some (.ok ⟨s, cp, tp, ec, fetches⟩)

/-- The sum in the average: KeyError (uncaught) on the first item missing
temperature_noon_c. -/
def sum_temps : List Item → Except Err ℚ
  | [] => .ok 0
  | i :: rest =>
    match i.temperature_noon_c with
    | none => .error .tempField
    | some t =>
      match sum_temps rest with
      | .error e => .error e
      | .ok x => .ok (t + x)

/-- What run prints at the end: the city line and either an average or the
no-data notice (average = none). -/
structure Report where
  city : Option String
  average : Option ℚ
deriving Repr, DecidableEq

/-- HomeworkClient.run: one unconditional get_token, the pagination loop from
current_page = 1, total_pages = 1, error_counter = 0, then the aggregation. -/
def run (env : Env) (fuel : ℕ) : Option (Except Err Report) :=
  match get_token env initState with
  | .error e => some (.error e)
  | .ok s1 =>
    match runLoop env fuel s1 1 1 0 0 with
    | none => none
    | some (.error e) => some (.error e)
    | some (.ok out) =>
      if out.st.all_items = [] then some (.ok { city := out.st.city, average := none })
      else
        match sum_temps out.st.all_items with
        | .error e => some (.error e)
        | .ok total =>
          some (.ok { city := out.st.city,
                      average := some (total / (out.st.all_items.length : ℚ)) })

end HW

namespace HW

/-! ## Helper lemmas about get_token and validate_token -/

/-- On a network failure, get_token only clears the token (and consumes the
auth oracle position). -/
theorem get_token_netError (env : Env) (s : St) (h : env.auth s.nAuth = .netError) :
    get_token env s = .ok { s with token := none, nAuth := s.nAuth + 1 } := by
  simp [get_token, h]

/-- A fully populated auth response (all four expected fields present). -/
def AuthFull (r : AuthResult) : Prop :=
  ∃ t c i u, r = .response ⟨some t, some c, some i, some u⟩

/-- On a fully populated response, get_token replaces the whole credential. -/
theorem get_token_full (env : Env) (s : St) (h : AuthFull (env.auth s.nAuth)) :
    ∃ t c i u, env.auth s.nAuth = .response ⟨some t, some c, some i, some u⟩ ∧
      get_token env s = .ok { s with
        token := some t, token_time := env.time s.nTime, city := some c,
        req_id := some i, url := some u, nAuth := s.nAuth + 1, nTime := s.nTime + 1 } := by
  obtain ⟨t, c, i, u, hr⟩ := h
  exact ⟨t, c, i, u, hr, by simp [get_token, hr]⟩

/-- An auth exchange that does not crash the program: either a network failure
(caught) or a fully populated response. -/
def AuthOk (r : AuthResult) : Prop := r = .netError ∨ AuthFull r

theorem get_token_all_items {env : Env} {s s1 : St}
    (h : get_token env s = .ok s1) : s1.all_items = s.all_items := by
  unfold get_token at h
  rcases henv : env.auth s.nAuth with _ | f <;> rw [henv] at h
  · simp only [Except.ok.injEq] at h
    subst h; rfl
  · rcases f with ⟨t, c, i, u⟩
    rcases t with _ | t
    · simp at h
    rcases c with _ | c
    · simp at h
    rcases i with _ | i
    · simp at h
    rcases u with _ | u
    · simp at h
    simp only [Except.ok.injEq] at h
    subst h; rfl

theorem validate_all_items {env : Env} {s s1 : St}
    (h : validate_token env s = .ok s1) : s1.all_items = s.all_items := by
  unfold validate_token at h
  split at h
  · exact get_token_all_items h
  · split at h
    · exact (get_token_all_items h).trans rfl
    · simp only [Except.ok.injEq] at h
      subst h; rfl

theorem get_token_ok (env : Env) (s : St) (h : AuthOk (env.auth s.nAuth)) :
    ∃ s1, get_token env s = .ok s1 ∧ s1.all_items = s.all_items ∧
      (s.url.isSome → s1.url.isSome) := by
  rcases h with h | ⟨t, c, i, u, h⟩
  · exact ⟨_, get_token_netError env s h, rfl, fun hu => hu⟩
  · exact ⟨{ s with
        token := some t, token_time := env.time s.nTime, city := some c,
        req_id := some i, url := some u, nAuth := s.nAuth + 1, nTime := s.nTime + 1 },
      by simp [get_token, h], rfl, fun _ => rfl⟩

theorem validate_ok (env : Env) (s : St) (hauth : ∀ k, AuthOk (env.auth k)) :
    ∃ s1, validate_token env s = .ok s1 ∧ s1.all_items = s.all_items ∧
      (s.url.isSome → s1.url.isSome) := by
  unfold validate_token
  split
  · exact get_token_ok env s (hauth _)
  · split
    · exact get_token_ok env _ (hauth _)
    · exact ⟨_, rfl, rfl, fun h => h⟩

/-! ## Helper lemmas about get_page -/

theorem attempt_result_of_page {env : Env} {s : St} {p : ℤ} {a : ℕ}
    (h : env.page p a = .netError) : attempt_result env s p a = .netError := by
  unfold attempt_result
  split <;> simp [h]

theorem attempt_result_some {env : Env} {s : St} {p : ℤ} {a : ℕ}
    (h : s.url.isSome) : attempt_result env s p a = env.page p a := by
  obtain ⟨u, hu⟩ := Option.isSome_iff_exists.mp h
  simp [attempt_result, hu]

theorem attempt_success_page {env : Env} {s : St} {p : ℤ} {a : ℕ} {items : List Item}
    {tp : Option ℤ} (h : attempt_result env s p a = .success items tp) :
    env.page p a = .success items tp := by
  unfold attempt_result at h
  split at h
  · cases h
  · exact h

/-- When all three attempts fail, the retry loop of get_page returns the sentinel. -/
theorem try_attempts_fail (env : Env) (s : St) (p : ℤ)
    (h : s.url = none ∨ ∀ a, 1 ≤ a → a ≤ 3 → env.page p a = .netError) :
    try_attempts env s p 1 3 = ([], 1) := by
  rcases h with h | h
  · simp [try_attempts, attempt_result, h]
  · have h1 := attempt_result_of_page (s := s) (h 1 (by norm_num) (by norm_num))
    have h2 := attempt_result_of_page (s := s) (h 2 (by norm_num) (by norm_num))
    have h3 := attempt_result_of_page (s := s) (h 3 (by norm_num) (by norm_num))
    simp [try_attempts, h1, h2, h3]

theorem get_page_fail (env : Env) (s s1 : St) (p : ℤ)
    (hv : validate_token env s = .ok s1)
    (h : s1.url = none ∨ ∀ a, 1 ≤ a → a ≤ 3 → env.page p a = .netError) :
    get_page env s p = .ok (s1, [], 1) := by
  simp [get_page, hv, try_attempts_fail env s1 p h]

/-- A page whose whole get_page call failed makes the loop overwrite total_pages
with the sentinel 1, advance the page, bump the error counter, and then stop:
either the error ceiling breaks, or the next loop test fails since
current_page + 1 is at least 2 which exceeds the new bound 1. -/
theorem runLoop_fail_step (env : Env) (fuel : ℕ) (s s1 : St) (cp tp : ℤ)
    (ec fetches : ℕ) (hcp : 1 ≤ cp) (hle : cp ≤ tp)
    (hv : validate_token env s = .ok s1)
    (hfail : s1.url = none ∨ ∀ a, 1 ≤ a → a ≤ 3 → env.page cp a = .netError) :
    runLoop env (fuel + 2) s cp tp ec fetches =
      some (.ok ⟨s1, cp + 1, 1, ec + 1, fetches + 1⟩) := by
  have hgp := get_page_fail env s s1 cp hv hfail
  have hnext : ¬(cp + 1 ≤ (1 : ℤ)) := by omega
  by_cases hbrk : MAX_ERROR ≤ ec + 1 <;>
    simp [runLoop, hle, loopBody, hgp, hbrk, hnext]

end HW

namespace HW

/-! ## C7 and C9: get_token on a network failure -/

def envA7 : Env :=
  { auth := fun _ => .netError, time := fun _ => 0, page := fun _ _ => .netError }

/-- C7: on a network-level failure of the authentication exchange, get_token
sets the token to None and returns normally (Except.ok, no exception); the
failure is visible only through the absent token. -/
theorem c7_theorem (env : Env) (s : St) (h : env.auth s.nAuth = .netError) :
    get_token env s = .ok { s with token := none, nAuth := s.nAuth + 1 } :=
  get_token_netError env s h

theorem c7_witness :
    envA7.auth initState.nAuth = .netError ∧
    get_token envA7 initState =
      .ok { initState with token := none, nAuth := initState.nAuth + 1 } :=
  ⟨rfl, c7_theorem envA7 initState rfl⟩

def envA9 : Env :=
  { auth := fun _ => .netError, time := fun _ => 7, page := fun _ _ => .netError }

def stA9 : St :=
  { token := some "old", token_time := 3, city := some "Haifa", req_id := some "rid",
    url := some "du", all_items := [⟨some 1⟩], nAuth := 4, nTime := 6 }

/-- C9 (frame property): when the authentication exchange fails at the network
level, get_token changes only the token field; city, req_id, url, token_time
(and the accumulated items) keep their prior values. -/
theorem c9_theorem (env : Env) (s : St) (h : env.auth s.nAuth = .netError) :
    ∃ s1, get_token env s = .ok s1 ∧ s1.token = none ∧ s1.city = s.city ∧
      s1.req_id = s.req_id ∧ s1.url = s.url ∧ s1.token_time = s.token_time ∧
      s1.all_items = s.all_items :=
  ⟨_, get_token_netError env s h, rfl, rfl, rfl, rfl, rfl, rfl⟩

theorem c9_witness :
    envA9.auth stA9.nAuth = .netError ∧
    (∃ s1, get_token envA9 stA9 = .ok s1 ∧ s1.token = none ∧ s1.city = stA9.city ∧
      s1.req_id = stA9.req_id ∧ s1.url = stA9.url ∧ s1.token_time = stA9.token_time ∧
      s1.all_items = stA9.all_items) :=
  ⟨rfl, c9_theorem envA9 stA9 rfl⟩

/-! ## C6: two successive validity checks -/

def envA6 : Env :=
  { auth := fun _ => .netError, time := fun _ => 0, page := fun _ _ => .netError }

/-- C6 is false as stated: from the initial state (token absent) with the
authentication endpoint unreachable, each of the two immediately successive
validate_token calls performs its own authentication exchange (nAuth counts
exchanges), so two exchanges happen, not at most one: the first refresh fails,
leaves the token absent, and the second call refreshes again. -/
theorem c6_counterexample :
    ((validate_token envA6 initState).bind (validate_token envA6)).map St.nAuth =
      .ok 2 := by rfl

def envA6w : Env :=
  { auth := fun _ => .response ⟨some "t", some "Eilat", some "r", some "u"⟩,
    time := fun _ => 0, page := fun _ _ => .netError }

/-- C6 amended: calling validate_token twice in immediate succession (all
time.time() values equal) performs at most one authentication exchange,
provided that a refresh performed by the first call succeeds (fully populated
response); a freshly issued token has age 0, below the 55 time-unit bound, so
the second call is a no-op. -/
theorem get_token_full_spec (env : Env) (s : St) (h : AuthFull (env.auth s.nAuth)) :
    ∃ s1, get_token env s = .ok s1 ∧ ¬s1.token = none ∧
      s1.token_time = env.time s.nTime ∧ s1.nAuth = s.nAuth + 1 := by
  obtain ⟨t, c, i, u, hr, hgt⟩ := get_token_full env s h
  exact ⟨_, hgt, by simp, rfl, rfl⟩

theorem c6_theorem (env : Env) (s : St)
    (htime : ∀ k, env.time k = env.time 0)
    (hfull : AuthFull (env.auth s.nAuth)) :
    ∃ s1 s2, validate_token env s = .ok s1 ∧ validate_token env s1 = .ok s2 ∧
      s2.nAuth ≤ s.nAuth + 1 := by
  have hnoop : ∀ s1 : St, ¬s1.token = none → s1.token_time = env.time 0 →
      validate_token env s1 = .ok { s1 with nTime := s1.nTime + 1 } := by
    intro s1 h1 h2
    rw [validate_token, if_neg h1, if_neg]
    rw [htime s1.nTime, h2]
    simp only [sub_self]
    norm_num [TOKEN_TIMEOUT]
  by_cases h0 : s.token = none
  · obtain ⟨s1, hgt, ht, htt, hna⟩ := get_token_full_spec env s hfull
    have hv1 : validate_token env s = .ok s1 := by
      rw [validate_token, if_pos h0]; exact hgt
    exact ⟨s1, _, hv1, hnoop s1 ht (htt.trans (htime s.nTime)), by simp [hna]⟩
  · by_cases hexp : TOKEN_TIMEOUT ≤ env.time s.nTime - s.token_time
    · obtain ⟨s1, hgt, ht, htt, hna⟩ :=
        get_token_full_spec env { s with nTime := s.nTime + 1 } hfull
      have hv1 : validate_token env s = .ok s1 := by
        rw [validate_token, if_neg h0, if_pos hexp]; exact hgt
      exact ⟨s1, _, hv1, hnoop s1 ht (htt.trans (htime _)), by simp [hna]⟩
    · have hv1 : validate_token env s = .ok { s with nTime := s.nTime + 1 } := by
        rw [validate_token, if_neg h0, if_neg hexp]
      have hexp0 : ¬TOKEN_TIMEOUT ≤ env.time 0 - s.token_time := by
        rw [htime s.nTime] at hexp; exact hexp
      have hv2 : validate_token env { s with nTime := s.nTime + 1 } =
          .ok { s with nTime := s.nTime + 1 + 1 } := by
        rw [validate_token, if_neg h0, if_neg]
        rw [htime (s.nTime + 1)]
        exact hexp0
      exact ⟨_, _, hv1, hv2, Nat.le_succ _⟩

theorem c6_witness :
    AuthFull (envA6w.auth initState.nAuth) ∧
    (∃ s1 s2, validate_token envA6w initState = .ok s1 ∧
      validate_token envA6w s1 = .ok s2 ∧ s2.nAuth ≤ initState.nAuth + 1) :=
  ⟨⟨"t", "Eilat", "r", "u", rfl⟩,
    c6_theorem envA6w initState (fun _ => rfl) ⟨"t", "Eilat", "r", "u", rfl⟩⟩

end HW

namespace HW

/-! ## C1: the failed-page sentinel and the loop bound -/

def envA1 : Env :=
  { auth := fun _ => .response ⟨some "t", some "c", some "r", some "u"⟩,
    time := fun _ => 0,
    page := fun p a =>
      if p = 1 ∧ a = 1 then .success [⟨some 10⟩] (some 3)
      else if p = 3 then .success [⟨some 99⟩] (some 3)
      else .netError }

def stA1 : St :=
  { token := some "t", token_time := 0, city := some "c", req_id := some "r",
    url := some "u", all_items := [], nAuth := 1, nTime := 1 }

/-- C1 is false as stated: in this run, page 1 succeeds and reports
total_pages = 3, page 2 then exhausts all retries, and the sentinel overwrites
the loop bound: the final total_pages is 1, not the previously observed 3, and
the loop stops after 2 fetches instead of continuing to page 3 (whose response
holds one more item). -/
theorem c1_counterexample :
    get_token envA1 initState = .ok stA1 ∧
    runLoop envA1 10 stA1 1 1 0 0 =
      some (.ok ⟨{ stA1 with nTime := 3, all_items := [⟨some 10⟩] }, 3, 1, 1, 2⟩) :=
  ⟨rfl, rfl⟩

/-- C1 amended: the sentinel total_pages = 1 returned for a page that exhausted
all retries DOES override a previously observed larger total_pages, and the
loop always terminates at the end of that iteration: either the error ceiling
breaks, or current_page + 1 (at least 2) exceeds the new bound 1. -/
theorem c1_theorem (env : Env) (fuel : ℕ) (s s1 : St) (cp tp : ℤ)
    (ec fetches : ℕ) (hcp : 1 ≤ cp) (hle : cp ≤ tp)
    (hv : validate_token env s = .ok s1)
    (hfail : s1.url = none ∨ ∀ a, 1 ≤ a → a ≤ 3 → env.page cp a = .netError) :
    runLoop env (fuel + 2) s cp tp ec fetches =
      some (.ok ⟨s1, cp + 1, 1, ec + 1, fetches + 1⟩) :=
  runLoop_fail_step env fuel s s1 cp tp ec fetches hcp hle hv hfail

theorem c1_witness :
    validate_token envA1 stA1 = .ok { stA1 with nTime := 2 } ∧
    runLoop envA1 10 stA1 2 3 0 1 =
      some (.ok ⟨{ stA1 with nTime := 2 }, 3, 1, 1, 2⟩) :=
  ⟨rfl, c1_theorem envA1 8 stA1 { stA1 with nTime := 2 } 2 3 0 1
    (by norm_num) (by norm_num) rfl
    (Or.inr (fun a h1 h3 => by interval_cases a <;> rfl))⟩

/-! ## C2: a run whose authentication always fails -/

def envA2 : Env :=
  { auth := fun _ => .netError, time := fun _ => 0, page := fun _ _ => .netError }

/-- C2 is false as stated: when every authentication attempt fails, the run
does produce a no-data report with the city unset, but the error counter never
reaches the ceiling of 5: the very first page failure writes the sentinel
total_pages = 1, current_page becomes 2, and the loop exits with the error
counter at 1 after a single page fetch. -/
theorem c2_counterexample :
    run envA2 10 = some (.ok { city := none, average := none }) ∧
    runLoop envA2 10 { initState with nAuth := 1 } 1 1 0 0 =
      some (.ok ⟨{ initState with nAuth := 2 }, 2, 1, 1, 1⟩) :=
  ⟨rfl, rfl⟩

/-- C2 amended: when the authentication call fails outright on every attempt,
no usable token or data url ever exists, so the sole page fetch of the run
fails all its retries; the loop then stops after that first page (error
counter 1, one fetch, the sentinel ends pagination long before the ceiling 5)
and the process reports no data with the city left unset. -/
theorem c2_theorem (env : Env) (hauth : ∀ k, env.auth k = .netError) (fuel : ℕ) :
    run env (fuel + 2) = some (.ok { city := none, average := none }) ∧
    runLoop env (fuel + 2) { initState with nAuth := 1 } 1 1 0 0 =
      some (.ok ⟨{ initState with nAuth := 2 }, 2, 1, 1, 1⟩) := by
  have h0 : get_token env initState = .ok { initState with nAuth := 1 } :=
    get_token_netError env initState (hauth 0)
  have hv : validate_token env { initState with nAuth := 1 } =
      .ok { initState with nAuth := 2 } := by
    rw [validate_token,
      if_pos (show ({ initState with nAuth := 1 } : St).token = none from rfl)]
    exact get_token_netError env _ (hauth 1)
  have hloop := runLoop_fail_step env fuel { initState with nAuth := 1 }
    { initState with nAuth := 2 } 1 1 0 0 (by norm_num) (by norm_num) hv
    (Or.inl rfl)
  refine ⟨?_, hloop⟩
  simp only [run, h0, hloop]
  rfl

theorem c2_witness :
    run envA2 12 = some (.ok { city := none, average := none }) :=
  (c2_theorem envA2 (fun _ => rfl) 10).1

/-! ## C4: effect of one page that fails every retry -/

def envA4 : Env :=
  { auth := fun _ => .netError, time := fun _ => 0, page := fun _ _ => .netError }

/-- C4: in the iteration of the loop whose page fails on every retry attempt,
the page contributes zero items (all_items is unchanged: the sentinel item
list is empty and validate_token never touches all_items), the error counter
increases by exactly one, and current_page still advances by one; the outer
loop never re-attempts the page (only the inner retry loop repeats a page). -/
theorem c4_theorem (env : Env) (s s1 : St) (cp : ℤ) (ec fetches : ℕ)
    (hv : validate_token env s = .ok s1)
    (hfail : s1.url = none ∨ ∀ a, 1 ≤ a → a ≤ 3 → env.page cp a = .netError) :
    loopBody env s cp ec fetches =
      .ok (s1, cp + 1, 1, ec + 1, fetches + 1, decide (MAX_ERROR ≤ ec + 1)) ∧
    s1.all_items = s.all_items := by
  constructor
  · simp [loopBody, get_page_fail env s s1 cp hv hfail]
  · exact validate_all_items hv

theorem c4_witness :
    validate_token envA4 initState = .ok { initState with nAuth := 1 } ∧
    (loopBody envA4 initState 1 0 0 =
        .ok ({ initState with nAuth := 1 }, 2, 1, 1, 1, false) ∧
      ({ initState with nAuth := 1 } : St).all_items = initState.all_items) :=
  ⟨rfl, c4_theorem envA4 initState { initState with nAuth := 1 } 1 0 0 rfl
    (Or.inl rfl)⟩

end HW

namespace HW

/-! ## C5: the fixed two-page round trip -/

def envA5 : Env :=
  { auth := fun _ => .response ⟨some "tok", some "TestCity", some "rid", some "du"⟩,
    time := fun _ => 0,
    page := fun p a =>
      if p = 1 ∧ a = 1 then .success [⟨some 10⟩] none
      else if p = 2 ∧ a = 1 then .success [⟨some 20⟩] (some 2)
      else .netError }

/-- C5 is false as stated: on the literal page sequence of the claim, whose first
response carries no totalPages field, get_page defaults that first
total_pages to 1, so the loop stops after page 1; the second page (temp 20) is
never fetched and the reported average is 10, not 15 (the city does match the
authentication response). -/
theorem c5_counterexample :
    run envA5 10 = some (.ok { city := some "TestCity", average := some 10 }) := by
  have h : run envA5 10 =
      some (.ok { city := some "TestCity", average := some ((10 + 0) / ((1 : ℕ) : ℚ)) }) :=
    rfl
  rw [h]
  norm_num

def envA5w : Env :=
  { auth := fun _ => .response ⟨some "tok", some "TestCity", some "rid", some "du"⟩,
    time := fun _ => 0,
    page := fun p a =>
      if p = 1 ∧ a = 1 then .success [⟨some 10⟩] (some 2)
      else if p = 2 ∧ a = 1 then .success [⟨some 20⟩] (some 2)
      else .netError }

/-- C5 amended: when the first page response also reports totalPages = 2 (the
minimal repair of the claimed sequence: pages with temps 10 and 20, both
reporting totalPages = 2), the run fetches both pages, the aggregate average
is exactly 15 (printed as 15.000 by the three-decimal format), and the
reported city is the dataset name returned by the authentication call. -/
theorem c5_theorem :
    run envA5w 10 = some (.ok { city := some "TestCity", average := some 15 }) := by
  have h : run envA5w 10 =
      some (.ok
        { city := some "TestCity", average := some ((10 + (20 + 0)) / ((2 : ℕ) : ℚ)) }) :=
    rfl
  rw [h]
  norm_num

end HW

namespace HW

/-! ## C3: runs whose pages all succeed on the first attempt -/

def envA3 : Env :=
  { auth := fun _ => .response ⟨some "t", some "c", some "r", some "u"⟩,
    time := fun _ => 0,
    page := fun _ a => if a = 1 then .success [] (some 6) else .netError }

def stA3 : St :=
  { token := some "t", token_time := 0, city := some "c", req_id := some "r",
    url := some "u", all_items := [], nAuth := 1, nTime := 1 }

/-- C3 is false as stated: in this run every page fetch succeeds on its first
attempt (HTTP success, parsed body with an empty item list, totalPages = 6),
but the empty item lists drive the error counter to the ceiling 5, so the loop
aborts after 5 fetches instead of performing exactly totalPages = 6 fetches. -/
theorem c3_counterexample :
    get_token envA3 initState = .ok stA3 ∧
    runLoop envA3 10 stA3 1 1 0 0 =
      some (.ok ⟨{ stA3 with nTime := 6 }, 6, 6, 5, 5⟩) :=
  ⟨rfl, rfl⟩

/-- Concatenation of the item lists of the given number of consecutive pages,
starting at page j. -/
def pagesConcat (pg : ℤ → List Item) (j : ℤ) : ℕ → List Item
  | 0 => []
  | n + 1 => pg j ++ pagesConcat pg (j + 1) n

theorem c3_loop (env : Env) (T : ℤ) (pagesItems : ℤ → List Item)
    (hauth : ∀ k, AuthOk (env.auth k))
    (hpage : ∀ p, 1 ≤ p → p ≤ T → env.page p 1 = .success (pagesItems p) (some T))
    (hne : ∀ p, 1 ≤ p → p ≤ T → ¬pagesItems p = []) :
    ∀ fuel : ℕ, ∀ j : ℤ, ∀ s : St, ∀ f : ℕ,
      2 ≤ j → j ≤ T + 1 → s.url.isSome → (T + 1 - j).toNat + 1 ≤ fuel →
      ∃ s1, runLoop env fuel s j T 0 f =
          some (.ok ⟨s1, T + 1, T, 0, f + (T + 1 - j).toNat⟩) ∧
        s1.all_items = s.all_items ++ pagesConcat pagesItems j (T + 1 - j).toNat := by
  intro fuel
  induction fuel with
  | zero => intro j s f h2 hjT hurl hfuel; omega
  | succ n ih =>
    intro j s f h2 hjT hurl hfuel
    by_cases hj : j ≤ T
    · obtain ⟨s1, hv, hai, hu⟩ := validate_ok env s hauth
      have hu1 : s1.url.isSome := hu hurl
      have ha : attempt_result env s1 j 1 = .success (pagesItems j) (some T) := by
        rw [attempt_result_some hu1]
        exact hpage j (by omega) hj
      have hta : try_attempts env s1 j 1 3 = (pagesItems j, T) := by
        simp [try_attempts, ha]
      have hgp : get_page env s j = .ok (s1, pagesItems j, T) := by
        simp [get_page, hv, hta]
      have hnej : ¬pagesItems j = [] := hne j (by omega) hj
      have hlb : loopBody env s j 0 f =
          .ok ({ s1 with all_items := s1.all_items ++ pagesItems j },
            j + 1, T, 0, f + 1, false) := by
        simp [loopBody, hgp, hnej, MAX_ERROR]
      obtain ⟨s2, hrl, hitems⟩ := ih (j + 1)
        { s1 with all_items := s1.all_items ++ pagesItems j } (f + 1)
        (by omega) (by omega) hu1 (by omega)
      refine ⟨s2, ?_, ?_⟩
      · have harith : f + (T + 1 - j).toNat = (f + 1) + (T + 1 - (j + 1)).toNat := by
          omega
        rw [harith]
        simp only [runLoop, if_pos hj, hlb, Bool.false_eq_true, if_false]
        exact hrl
      · rw [hitems]
        simp only [hai, List.append_assoc]
        congr 1
        have hN : (T + 1 - j).toNat = (T + 1 - (j + 1)).toNat + 1 := by omega
        rw [hN, pagesConcat]
    · have hj1 : j = T + 1 := by omega
      subst hj1
      have hnot : ¬(T + 1 ≤ T) := by omega
      have hN : (T + 1 - (T + 1)).toNat = 0 := by omega
      refine ⟨s, ?_, ?_⟩
      · simp [runLoop, hnot, hN]
      · simp [hN, pagesConcat]

/-- C3 amended: for a run where every page fetch succeeds on its first attempt
with a NON-EMPTY item list (all responses reporting the same totalPages = T,
with a crash-free authentication oracle and an initial auth response that set
a data url), the accumulated collection is exactly the concatenation of the
page items in page order and the loop performs exactly T page fetches. The
non-emptiness is forced by the counterexample: empty successful pages take the
failed-page branch of the loop. -/
theorem c3_theorem (env : Env) (T : ℤ) (pagesItems : ℤ → List Item) (s1 : St)
    (hT : 1 ≤ T)
    (hauth : ∀ k, AuthOk (env.auth k))
    (hpage : ∀ p, 1 ≤ p → p ≤ T → env.page p 1 = .success (pagesItems p) (some T))
    (hne : ∀ p, 1 ≤ p → p ≤ T → ¬pagesItems p = [])
    (hstart : get_token env initState = .ok s1) (hurl : s1.url.isSome)
    (fuel : ℕ) (hfuel : T.toNat + 1 ≤ fuel) :
    ∃ s2, runLoop env fuel s1 1 1 0 0 = some (.ok ⟨s2, T + 1, T, 0, T.toNat⟩) ∧
      s2.all_items = pagesConcat pagesItems 1 T.toNat := by
  obtain ⟨m, rfl⟩ : ∃ m, fuel = m + 1 := ⟨fuel - 1, by omega⟩
  obtain ⟨s2, hv, hai, hu⟩ := validate_ok env s1 hauth
  have hu2 : s2.url.isSome := hu hurl
  have ha : attempt_result env s2 1 1 = .success (pagesItems 1) (some T) := by
    rw [attempt_result_some hu2]
    exact hpage 1 (by omega) hT
  have hta : try_attempts env s2 1 1 3 = (pagesItems 1, T) := by
    simp [try_attempts, ha]
  have hgp : get_page env s1 1 = .ok (s2, pagesItems 1, T) := by
    simp [get_page, hv, hta]
  have hne1 : ¬pagesItems 1 = [] := hne 1 (by omega) hT
  have hlb : loopBody env s1 1 0 0 =
      .ok ({ s2 with all_items := s2.all_items ++ pagesItems 1 }, 2, T, 0, 1, false) := by
    simp [loopBody, hgp, hne1, MAX_ERROR]
  obtain ⟨s3, hrl, hitems⟩ := c3_loop env T pagesItems hauth hpage hne m 2
    { s2 with all_items := s2.all_items ++ pagesItems 1 } 1
    (by omega) (by omega) hu2 (by omega)
  refine ⟨s3, ?_, ?_⟩
  · have harith : (1 : ℕ) + (T + 1 - 2).toNat = T.toNat := by omega
    rw [← harith]
    simp only [runLoop, if_pos (show (1 : ℤ) ≤ 1 by norm_num), hlb,
      Bool.false_eq_true, if_false]
    exact hrl
  · rw [hitems]
    simp only [hai, get_token_all_items hstart]
    have hN : T.toNat = (T + 1 - 2).toNat + 1 := by omega
    rw [hN, pagesConcat]
    simp [initState]

def envA3w : Env :=
  { auth := fun _ => .response ⟨some "t", some "c", some "r", some "u"⟩,
    time := fun _ => 0,
    page := fun _ a => if a = 1 then .success [⟨some 3⟩] (some 2) else .netError }

def stA3w : St :=
  { token := some "t", token_time := 0, city := some "c", req_id := some "r",
    url := some "u", all_items := [], nAuth := 1, nTime := 1 }

theorem c3_witness :
    (1 : ℤ) ≤ 2 ∧
    (∃ s2, runLoop envA3w 3 stA3w 1 1 0 0 = some (.ok ⟨s2, 3, 2, 0, 2⟩) ∧
      s2.all_items = pagesConcat (fun _ => [⟨some 3⟩]) 1 2) :=
  ⟨by norm_num,
    c3_theorem envA3w 2 (fun _ => [⟨some 3⟩]) stA3w (by norm_num)
      (fun _ => Or.inr ⟨"t", "c", "r", "u", rfl⟩)
      (fun p _ _ => rfl) (fun p _ _ => by simp) rfl rfl 3 (by omega)⟩

end HW

namespace HW

/-! ## C8: which external behaviours can crash run -/

/-- Every item of the list carries the temperature_noon_c field. -/
def itemsOk (l : List Item) : Prop := ∀ i ∈ l, i.temperature_noon_c.isSome

theorem itemsOk_append {l1 l2 : List Item} (h1 : itemsOk l1) (h2 : itemsOk l2) :
    itemsOk (l1 ++ l2) := by
  intro i hi
  rcases List.mem_append.mp hi with h | h
  exacts [h1 i h, h2 i h]

theorem try_attempts_items (env : Env) (s : St) (p : ℤ)
    (htemp : ∀ a items tp, env.page p a = .success items tp → itemsOk items) :
    ∀ att r, itemsOk (try_attempts env s p att r).1 := by
  intro att r
  induction r generalizing att with
  | zero => intro i hi; simp [try_attempts] at hi
  | succ n ih =>
    rcases hres : attempt_result env s p att with _ | ⟨items, tp⟩
    · simpa [try_attempts, hres] using ih (att + 1)
    · have := htemp att items tp (attempt_success_page hres)
      simpa [try_attempts, hres] using this

theorem loopBody_ok (env : Env) (s : St) (cp : ℤ) (ec f : ℕ)
    (hauth : ∀ k, AuthOk (env.auth k))
    (htempp : ∀ a items tp, env.page cp a = .success items tp → itemsOk items)
    (hok : itemsOk s.all_items) :
    ∃ s2 tp1 ec1 brk, loopBody env s cp ec f = .ok (s2, cp + 1, tp1, ec1, f + 1, brk) ∧
      itemsOk s2.all_items := by
  obtain ⟨s1, hv, hai, _⟩ := validate_ok env s hauth
  have hti : itemsOk (try_attempts env s1 cp 1 3).1 :=
    try_attempts_items env s1 cp htempp 1 3
  have hs1 : itemsOk s1.all_items := by rw [hai]; exact hok
  by_cases hemp : (try_attempts env s1 cp 1 3).1 = []
  · refine ⟨s1, (try_attempts env s1 cp 1 3).2, ec + 1,
      decide (MAX_ERROR ≤ ec + 1), ?_, hs1⟩
    simp [loopBody, get_page, hv, hemp]
  · refine ⟨{ s1 with all_items := s1.all_items ++ (try_attempts env s1 cp 1 3).1 },
      (try_attempts env s1 cp 1 3).2, 0, decide (MAX_ERROR ≤ 0), ?_,
      itemsOk_append hs1 hti⟩
    simp [loopBody, get_page, hv, hemp]

theorem runLoop_no_error (env : Env)
    (hauth : ∀ k, AuthOk (env.auth k))
    (htemp : ∀ p a items tp, env.page p a = .success items tp → itemsOk items) :
    ∀ fuel (s : St) (cp tp : ℤ) (ec f : ℕ), itemsOk s.all_items →
      (∀ e, ¬runLoop env fuel s cp tp ec f = some (.error e)) ∧
      (∀ out, runLoop env fuel s cp tp ec f = some (.ok out) →
        itemsOk out.st.all_items) := by
  intro fuel
  induction fuel with
  | zero =>
    intro s cp tp ec f hok
    exact ⟨fun e h => by simp [runLoop] at h, fun out h => by simp [runLoop] at h⟩
  | succ n ih =>
    intro s cp tp ec f hok
    by_cases hcp : cp ≤ tp
    · obtain ⟨s2, tp1, ec1, brk, hlb, hok2⟩ :=
        loopBody_ok env s cp ec f hauth (fun a items tp2 => htemp cp a items tp2) hok
      cases brk with
      | true =>
        constructor
        · intro e h
          simp [runLoop, hcp, hlb] at h
        · intro out h
          simp only [runLoop, if_pos hcp, hlb] at h
          simp only [if_true, Option.some.injEq, Except.ok.injEq] at h
          subst h
          exact hok2
      | false =>
        have hrec := ih s2 (cp + 1) tp1 ec1 (f + 1) hok2
        constructor
        · intro e h
          simp only [runLoop, if_pos hcp, hlb, Bool.false_eq_true, if_false] at h
          exact hrec.1 e h
        · intro out h
          simp only [runLoop, if_pos hcp, hlb, Bool.false_eq_true, if_false] at h
          exact hrec.2 out h
    · constructor
      · intro e h
        simp [runLoop, hcp] at h
      · intro out h
        simp only [runLoop, if_neg hcp, Option.some.injEq, Except.ok.injEq] at h
        subst h
        exact hok

theorem sum_temps_ok : ∀ l : List Item, itemsOk l → ∃ q, sum_temps l = .ok q := by
  intro l h
  induction l with
  | nil => exact ⟨0, rfl⟩
  | cons i rest ih =>
    have hi : i.temperature_noon_c.isSome = true := h i (List.mem_cons_self i rest)
    obtain ⟨t, ht⟩ := Option.isSome_iff_exists.mp hi
    obtain ⟨q, hq⟩ := ih (fun j hj => h j (List.mem_cons_of_mem i hj))
    exact ⟨t + q, by simp [sum_temps, ht, hq]⟩

def envA8 : Env :=
  { auth := fun _ => .response ⟨some "t", none, none, none⟩,
    time := fun _ => 0, page := fun _ _ => .netError }

/-- C8 is false as stated: a malformed authentication response (successful
transport, parsed JSON carrying a token but no dataset field) makes get_token
raise an uncaught KeyError, crashing the run even though no accumulated record
lacks temperature_noon_c (the collection is still empty at that point). -/
theorem c8_counterexample : run envA8 5 = some (.error Err.authField) := rfl

/-- C8 amended: whenever every authentication response is either a caught
network failure or a fully populated body, and every record of every page
response carries temperature_noon_c, run never ends in an unhandled exception:
all transport errors are swallowed into empty/absent sentinels at the boundary
where they occur. The two remaining crash modes are an accumulated record
lacking temperature_noon_c (granted by the claim) and the malformed
authentication response of the counterexample. -/
theorem c8_theorem (env : Env)
    (hauth : ∀ k, AuthOk (env.auth k))
    (htemp : ∀ p a items tp, env.page p a = .success items tp → itemsOk items)
    (fuel : ℕ) (e : Err) :
    ¬run env fuel = some (.error e) := by
  intro h
  obtain ⟨s1, hgt, hai, _⟩ := get_token_ok env initState (hauth _)
  simp only [run, hgt] at h
  have hok1 : itemsOk s1.all_items := by
    rw [hai]
    intro i hi
    simp [initState] at hi
  have hloop := runLoop_no_error env hauth htemp fuel s1 1 1 0 0 hok1
  rcases hrl : runLoop env fuel s1 1 1 0 0 with _ | r
  · rw [hrl] at h
    simp at h
  · rcases r with e2 | out
    · exact hloop.1 e2 hrl
    · rw [hrl] at h
      have hok := hloop.2 out hrl
      by_cases hemp : out.st.all_items = []
      · simp [hemp] at h
      · obtain ⟨q, hq⟩ := sum_temps_ok out.st.all_items hok
        simp [hemp, hq] at h

def envA8w : Env :=
  { auth := fun _ => .response ⟨some "t", some "c", some "r", some "u"⟩,
    time := fun _ => 0, page := fun _ _ => .success [⟨some 1⟩] (some 1) }

theorem c8_witness :
    AuthOk (envA8w.auth 0) ∧ ¬run envA8w 4 = some (.error Err.tempField) :=
  ⟨Or.inr ⟨"t", "c", "r", "u", rfl⟩,
    c8_theorem envA8w (fun _ => Or.inr ⟨"t", "c", "r", "u", rfl⟩)
      (fun p a items tp h => by
        cases h
        intro i hi
        simp at hi
        subst hi
        rfl) 4 .tempField⟩

end HW

namespace HW

/-! ## C10: termination of the pagination loop under a total_pages bound -/

theorem try_attempts_tp_le (env : Env) (s : St) (p : ℤ) (B : ℤ) (hB : 1 ≤ B)
    (h : ∀ a items tp, env.page p a = .success items tp → tp.getD 1 ≤ B) :
    ∀ att r, (try_attempts env s p att r).2 ≤ B := by
  intro att r
  induction r generalizing att with
  | zero => simpa [try_attempts] using hB
  | succ n ih =>
    rcases hres : attempt_result env s p att with _ | ⟨items, tp⟩
    · simpa [try_attempts, hres] using ih (att + 1)
    · have := h att items tp (attempt_success_page hres)
      simpa [try_attempts, hres] using this

theorem get_page_tp_le (env : Env) (s : St) (p : ℤ) (B : ℤ) (hB : 1 ≤ B)
    (h : ∀ a items tp, env.page p a = .success items tp → tp.getD 1 ≤ B)
    {s1 : St} {items : List Item} {tp : ℤ}
    (hgp : get_page env s p = .ok (s1, items, tp)) : tp ≤ B := by
  unfold get_page at hgp
  rcases hv : validate_token env s with e | s2 <;> rw [hv] at hgp
  · cases hgp
  · simp only [Except.ok.injEq, Prod.mk.injEq] at hgp
    obtain ⟨h1, h2, h3⟩ := hgp
    rw [← h3]
    exact try_attempts_tp_le env s2 p B hB h 1 3

theorem runLoop_term (env : Env) (B : ℤ) (hB : 1 ≤ B)
    (hpage : ∀ p a items tp, env.page p a = .success items tp → tp.getD 1 ≤ B) :
    ∀ fuel (s : St) (cp tp : ℤ) (ec f : ℕ), 1 ≤ cp → tp ≤ B →
      (B + 1 - cp).toNat + 1 ≤ fuel →
      (¬runLoop env fuel s cp tp ec f = none) ∧
      (∀ out, runLoop env fuel s cp tp ec f = some (.ok out) →
        out.fetches ≤ f + (B + 1 - cp).toNat) := by
  intro fuel
  induction fuel with
  | zero => intro s cp tp ec f h1 h2 h3; omega
  | succ n ih =>
    intro s cp tp ec f h1 h2 h3
    by_cases hcp : cp ≤ tp
    · have hone : 1 ≤ (B + 1 - cp).toNat := by omega
      rcases hgp : get_page env s cp with e | r
      · constructor
        · intro h
          simp [runLoop, hcp, loopBody, hgp] at h
        · intro out h
          simp [runLoop, hcp, loopBody, hgp] at h
      · obtain ⟨s1, items, tp1⟩ := r
        have htp1 : tp1 ≤ B :=
          get_page_tp_le env s cp B hB (fun a items2 tp2 => hpage cp a items2 tp2) hgp
        have hlb : loopBody env s cp ec f =
            .ok (if items = [] then s1 else { s1 with all_items := s1.all_items ++ items },
              cp + 1, tp1, if items = [] then ec + 1 else 0, f + 1,
              decide (MAX_ERROR ≤ if items = [] then ec + 1 else 0)) := by
          simp [loopBody, hgp]
        by_cases hbrk : MAX_ERROR ≤ if items = [] then ec + 1 else 0
        · constructor
          · intro h
            simp [runLoop, hcp, hlb, hbrk] at h
          · intro out h
            simp only [runLoop, if_pos hcp, hlb, hbrk, decide_true_eq_true] at h
            simp only [if_true, Option.some.injEq, Except.ok.injEq] at h
            subst h
            simpa using by omega
        · have hrec := ih
            (if items = [] then s1 else { s1 with all_items := s1.all_items ++ items })
            (cp + 1) tp1 (if items = [] then ec + 1 else 0) (f + 1)
            (by omega) htp1 (by omega)
          constructor
          · intro h
            simp only [runLoop, if_pos hcp, hlb, hbrk, decide_false_eq_false,
              Bool.false_eq_true, if_false] at h
            exact hrec.1 h
          · intro out h
            simp only [runLoop, if_pos hcp, hlb, hbrk, decide_false_eq_false,
              Bool.false_eq_true, if_false] at h
            have := hrec.2 out h
            omega
    · constructor
      · intro h
        simp [runLoop, hcp] at h
      · intro out h
        simp only [runLoop, if_neg hcp, Option.some.injEq, Except.ok.injEq] at h
        subst h
        exact Nat.le_add_right f _

/-- C10: whenever some bound B at least 1 dominates every total_pages value a
page response can report (the failure sentinel 1 included), the while loop of
run terminates, and it performs at most B page fetches: current_page increases
by one on every iteration, successful or failed, and never exceeds the
running total_pages bound, itself at most B. Fuel B + 1 always suffices. -/
theorem c10_theorem (env : Env) (B : ℤ) (hB : 1 ≤ B)
    (hpage : ∀ p a items tp, env.page p a = .success items tp → tp.getD 1 ≤ B)
    (s : St) :
    (¬runLoop env (B.toNat + 1) s 1 1 0 0 = none) ∧
    (∀ out, runLoop env (B.toNat + 1) s 1 1 0 0 = some (.ok out) →
      out.fetches ≤ B.toNat) := by
  have h := runLoop_term env B hB hpage (B.toNat + 1) s 1 1 0 0 (by norm_num) hB
    (by omega)
  refine ⟨h.1, fun out hout => ?_⟩
  have := h.2 out hout
  omega

def envA10 : Env :=
  { auth := fun _ => .netError, time := fun _ => 0,
    page := fun _ _ => .success [] (some 2) }

theorem c10_witness :
    (1 : ℤ) ≤ 2 ∧ ¬runLoop envA10 3 initState 1 1 0 0 = none :=
  ⟨by norm_num,
    (c10_theorem envA10 2 (by norm_num)
      (fun p a items tp h => by cases h; norm_num) initState).1⟩

end HW
